import Mathlib

/-!
# Verification of the BciPy mock data-streaming server

Shallow embedding of `bcipy/acquisition/datastream/server.py` and
`bcipy/acquisition/processor.py`, together with theorems settling the
specification claims about them.

Conventions:
* byte strings are modelled as `List Nat`;
* Python exceptions are modelled with `Except`; a `try/except` that catches
  an exception corresponds to a match on the `.error` constructor;
* Python `queue.Queue` is modelled as a capacity value plus a list of items.
-/

/-- A byte string on the wire (one handshake message or one encoded frame). -/
abbrev Bytes := List Nat

/-- The protocol descriptor consumed by the server: sample rate `fs`,
handshake messages `init_messages`, and a per-sample `encoder`
(server.py uses `protocol.fs`, `protocol.init_messages`, `protocol.encoder`,
`protocol.channels`). -/
structure Protocol (S : Type) where
  fs : ℚ
  init_messages : List Bytes
  encoder : S → Bytes
  channels : Nat

/-- Exceptions relevant to the session loop: `queue.Empty` raised by a timed
queue take, and `IOError` raised by a socket write. -/
inductive PyExn
  | empty
  | ioerror
deriving DecidableEq

/-- How a session ended: queue stall (`Empty` after the bounded wait), client
disconnect (`IOError` on write), or the server's running flag going false. -/
inductive SessionEnd
  | stalled
  | disconnected
  | stopped
deriving DecidableEq

/-- Result of the streaming loop of `_handle_client`: the frames successfully
written to the client, how the session ended, and whether the client socket
was closed. -/
structure SessionResult where
  writes : List Bytes
  ending : SessionEnd
  closed : Bool
deriving DecidableEq

/-- One event of a session's interleaved execution: either the producer
enqueues an encoded frame, or the server runs one iteration of the streaming
loop of `_handle_client` (server.py lines 112-122), whose socket write
succeeds or raises `IOError` as given. An empty remaining event list models
the running flag being observed false. -/
inductive SessEvent
  | enq (b : Bytes)
  | iter (writeOk : Bool)
deriving DecidableEq

/-- `data_queue.get(True, 5)` (server.py line 115): returns the front item,
or raises `queue.Empty` when no item arrives within the bounded wait. -/
def takeRes (q : List Bytes) : Except PyExn (Bytes × List Bytes) :=
  match q with
  | [] => .error .empty
  | b :: q' => .ok (b, q')

/-- `wfile.write(item)` (server.py line 120): raises `IOError` when the
client has disconnected. -/
def writeRes (ok : Bool) : Except PyExn Unit :=
  if ok then .ok () else .error .ioerror

/-- The streaming loop of `_handle_client` (server.py lines 112-124), run over
a list of interleaving events with the given queue contents.  `except Empty`
closes the client socket and breaks (stall); `except IOError` breaks
(disconnect); after the loop the client socket is closed.  The `.error`
result models an exception escaping the handler. -/
def sessionSteps : List SessEvent → List Bytes → Except PyExn SessionResult
  | [], _ => .ok ⟨[], .stopped, true⟩
  | .enq b :: es, q => sessionSteps es (q ++ [b])
  | .iter w :: es, q =>
    match takeRes q with
    | .error .empty => .ok ⟨[], .stalled, true⟩
    | .error e => .error e
    | .ok (item, q') =>
      match writeRes w with
      | .error .ioerror => .ok ⟨[], .disconnected, true⟩
      | .error e => .error e
      | .ok _ =>
        match sessionSteps es q' with
        | .ok r => .ok ⟨item :: r.writes, r.ending, r.closed⟩
        | .error e => .error e

/-- The frames enqueued by the producer during a session, in order. -/
def enqsOf : List SessEvent → List Bytes
  | [] => []
  | .enq b :: es => b :: enqsOf es
  | .iter _ :: es => enqsOf es

/-- Modelled from the spec: the Producer and the generator's encoding step
(`bcipy/acquisition/datastream/producer.py` and `generator.py` are not among
the sources).  Per the spec, the producer requests samples from the generator
in order, encodes each one, and enqueues the result, so the enqueue sequence
of a session that produced its first `k` samples is
`encode(sample_0), ..., encode(sample_(k-1))`. -/
def producerEnqueues (p : Protocol S) (samples : Nat → S) (k : Nat) : List Bytes :=
  (List.range k).map (fun i => p.encoder (samples i))

/-- `_handle_client` (server.py lines 90-124): writes the protocol's
handshake messages first (lines 100-101, modelled as succeeding), then runs
the streaming loop.  Returns the full chunk sequence written to the client
together with the session result. -/
def handleClientRes (p : Protocol S) (es : List SessEvent) :
    Except PyExn (List Bytes × SessionResult) :=
  match sessionSteps es [] with
  | .ok r => .ok (p.init_messages ++ r.writes, r)
  | .error e => .error e

/-- The accept loop of `run` (server.py lines 62-76): each accepted
connection is handled by `_handle_client`; an exception escaping a handler
would crash the loop.  Returns the write traces of the handled sessions. -/
def serverRun (p : Protocol S) : List (List SessEvent) → Except PyExn (List (List Bytes))
  | [] => .ok []
  | es :: rest =>
    match handleClientRes p es with
    | .error e => .error e
    | .ok (w, _) =>
      match serverRun p rest with
      | .error e => .error e
      | .ok ws => .ok (w :: ws)

/-- Core session lemma: the streaming loop never lets an exception escape,
always closes the client socket, and the frames it writes are an initial
segment of the queue contents followed by the producer's enqueues, in
order. -/
theorem sessionSteps_ok (es : List SessEvent) (q : List Bytes) :
    ∃ r m, sessionSteps es q = .ok r ∧ r.closed = true ∧
      r.writes = (q ++ enqsOf es).take m := by
  induction es generalizing q with
  | nil =>
    exact ⟨⟨[], .stopped, true⟩, 0, rfl, rfl, by simp⟩
  | cons e es ih =>
    cases e with
    | enq b =>
      obtain ⟨r, m, h1, h2, h3⟩ := ih (q ++ [b])
      refine ⟨r, m, h1, h2, ?_⟩
      simpa [List.append_assoc] using h3
    | iter w =>
      cases q with
      | nil =>
        exact ⟨⟨[], .stalled, true⟩, 0, by simp [sessionSteps, takeRes], rfl, by simp⟩
      | cons item q' =>
        cases w with
        | false =>
          exact ⟨⟨[], .disconnected, true⟩, 0,
            by simp [sessionSteps, takeRes, writeRes], rfl, by simp⟩
        | true =>
          obtain ⟨r, m, h1, h2, h3⟩ := ih q'
          refine ⟨⟨item :: r.writes, r.ending, r.closed⟩, m + 1,
            ?_, h2, ?_⟩
          · simp [sessionSteps, takeRes, writeRes, h1]
          · simp [enqsOf, List.take_succ_cons, h3]

/-- C1: for a deterministic generator whose producer enqueued
`encode(sample_0), ..., encode(sample_(k-1))` in generation order, the byte
stream written to the client is exactly the handshake messages, verbatim and
in order, followed by `encode(sample_i)` for `i = 0, 1, ...` up to some
`m ≤ k`, in strict generation order, with no frame before the last handshake
message. -/
theorem client_stream_is_handshake_then_frames (p : Protocol S)
    (samples : Nat → S) (es : List SessEvent) (k : Nat)
    (h : enqsOf es = producerEnqueues p samples k) :
    ∃ m r, m ≤ k ∧
      handleClientRes p es = .ok (p.init_messages ++ producerEnqueues p samples m, r) := by
  obtain ⟨r, m, h1, _h2, h3⟩ := sessionSteps_ok es []
  refine ⟨min m k, r, Nat.min_le_right m k, ?_⟩
  have hw : r.writes = producerEnqueues p samples (min m k) := by
    rw [h3]
    simp only [List.nil_append, h, producerEnqueues]
    rw [← List.map_take, List.take_range]
  simp [handleClientRes, h1, hw]

/-- Witness for C1 at a concrete session: two frames produced and written. -/
theorem client_stream_is_handshake_then_frames_witness :
    enqsOf [SessEvent.enq [0], SessEvent.iter true, SessEvent.enq [1], SessEvent.iter true]
        = producerEnqueues ⟨1, [[7], [8]], fun s => [s], 1⟩ (fun i => i) 2 ∧
      ∃ m r, m ≤ 2 ∧
        handleClientRes ⟨1, [[7], [8]], fun s => [s], 1⟩
            [SessEvent.enq [0], SessEvent.iter true, SessEvent.enq [1], SessEvent.iter true]
          = .ok ((⟨1, [[7], [8]], fun s => [s], 1⟩ : Protocol Nat).init_messages ++
              producerEnqueues ⟨1, [[7], [8]], fun s => [s], 1⟩ (fun i => i) m, r) :=
  ⟨by decide, client_stream_is_handshake_then_frames _ _ _ 2 (by decide)⟩

/-- C5: a queue stall (`Empty` after the bounded wait) or a write failure
(`IOError`) ends only that session: no exception escapes the handler, the
client socket is closed on every path, and the accept loop handles every
subsequent accepted connection. -/
theorem session_failure_is_local (p : Protocol S) (es : List SessEvent)
    (sessions : List (List SessEvent)) :
    (∃ r, sessionSteps es [] = .ok r ∧ r.closed = true) ∧
      (∃ ws, serverRun p sessions = .ok ws ∧ ws.length = sessions.length) := by
  constructor
  · obtain ⟨r, m, h1, h2, _⟩ := sessionSteps_ok es []
    exact ⟨r, h1, h2⟩
  · induction sessions with
    | nil => exact ⟨[], rfl, rfl⟩
    | cons es₀ rest ih =>
      obtain ⟨ws, hws, hlen⟩ := ih
      obtain ⟨r, m, h1, _, _⟩ := sessionSteps_ok es₀ []
      refine ⟨(p.init_messages ++ r.writes) :: ws, ?_, by simp [hlen]⟩
      simp [serverRun, handleClientRes, h1, hws]

/-- Python `queue.Queue`: a maxsize (0 or less means infinite capacity) and
the queued items, front first. -/
structure PyQueue (α : Type) where
  maxsize : Nat
  items : List α
deriving DecidableEq

/-- A Python queue is full exactly when its maxsize is positive and reached;
`put` blocks while the queue is full. -/
def PyQueue.isFull (q : PyQueue α) : Bool :=
  decide (0 < q.maxsize) && decide (q.maxsize ≤ q.items.length)

/-- `queue.put(x)`: appends `x` at the back (it blocks only when the queue is
full, which is never the case for the server's unbounded queue). -/
def PyQueue.putItem (q : PyQueue α) (x : α) : PyQueue α :=
  ⟨q.maxsize, q.items ++ [x]⟩

/-- `data_queue = Queue()` (server.py line 106): no maxsize argument, so
maxsize is 0 — an unbounded queue. -/
def dataQueue : PyQueue Bytes := ⟨0, []⟩

/-- `n` successive producer puts into the server's fresh hand-off queue. -/
def putN : Nat → PyQueue Bytes
  | 0 => dataQueue
  | n + 1 => (putN n).putItem [n]

/-- One queue operation: a producer put or a consumer get. -/
inductive QEvent
  | qput (b : Bytes)
  | qget
deriving DecidableEq

/-- Runs a sequence of put/get operations on a queue, returning the final
queue and the items obtained by the gets, in order (a get on an empty queue
yields nothing here; in the session loop it is the stall case). -/
def runQ : List QEvent → PyQueue Bytes → PyQueue Bytes × List Bytes
  | [], q => (q, [])
  | .qput b :: es, q => runQ es (q.putItem b)
  | .qget :: es, ⟨ms, []⟩ => runQ es ⟨ms, []⟩
  | .qget :: es, ⟨ms, b :: rest⟩ =>
    let r := runQ es ⟨ms, rest⟩
    (r.1, b :: r.2)

/-- The items put during a sequence of queue operations, in order. -/
def qputsOf : List QEvent → List Bytes
  | [] => []
  | .qput b :: es => b :: qputsOf es
  | .qget :: es => qputsOf es

theorem putN_length (n : Nat) : (putN n).items.length = n := by
  induction n with
  | zero => rfl
  | succ n ih => simp [putN, PyQueue.putItem, ih]

theorem putN_maxsize (n : Nat) : (putN n).maxsize = 0 := by
  induction n with
  | zero => rfl
  | succ n ih => simp [putN, PyQueue.putItem, ih]

/-- FIFO lemma: for any interleaving of puts and gets, the gotten items are an
initial segment of the initial contents followed by the puts, in order. -/
theorem runQ_fifo (es : List QEvent) (q : PyQueue Bytes) :
    ∃ m, (runQ es q).2 = (q.items ++ qputsOf es).take m := by
  induction es generalizing q with
  | nil => exact ⟨0, by simp [runQ]⟩
  | cons e es ih =>
    obtain ⟨ms, items⟩ := q
    cases e with
    | qput b =>
      obtain ⟨m, hm⟩ := ih (PyQueue.putItem ⟨ms, items⟩ b)
      refine ⟨m, ?_⟩
      simp only [PyQueue.putItem] at hm
      simp [runQ, hm, PyQueue.putItem, qputsOf, List.append_assoc]
    | qget =>
      cases items with
      | nil =>
        obtain ⟨m, hm⟩ := ih ⟨ms, []⟩
        refine ⟨m, ?_⟩
        simpa [runQ, qputsOf] using hm
      | cons b rest =>
        obtain ⟨m, hm⟩ := ih ⟨ms, rest⟩
        refine ⟨m + 1, ?_⟩
        simp [runQ, hm, qputsOf, List.take_succ_cons]

/-- C7 counterexample: the session's hand-off queue (`Queue()`, maxsize 0) has
no finite capacity bound — for every claimed capacity there is a put sequence
whose backlog exceeds it. -/
theorem data_queue_unbounded :
    ¬ ∃ cap : Nat, 0 < cap ∧ ∀ n : Nat, (putN n).items.length ≤ cap := by
  rintro ⟨cap, _hpos, h⟩
  have := h (cap + 1)
  rw [putN_length] at this
  omega

/-- C7 amended: the hand-off queue is a FIFO of encoded byte-chunks — items
are dequeued in exactly the order they were enqueued — but it is unbounded:
`Queue()` is created with maxsize 0, so it is never full and puts never
block. -/
theorem data_queue_fifo_unbounded :
    (∀ n : Nat, (putN n).isFull = false) ∧
      (∀ es : List QEvent, ∃ m, (runQ es dataQueue).2 = (qputsOf es).take m) := by
  constructor
  · intro n
    simp [PyQueue.isFull, putN_maxsize]
  · intro es
    simpa [dataQueue] using runQ_fifo es dataQueue

/-- A successfully constructed DataServer, identified by its bound port. -/
structure ServerHandle where
  port : Nat
deriving DecidableEq

/-- The `IOError` raised by `socket.bind` when the address is already in use,
tagged with the port whose bind raised it. -/
inductive BindErr
  | addrInUse (port : Nat)
deriving DecidableEq

/-- `DataServer.__init__` (server.py lines 33-51): binds the socket to the
given port in the constructor so that bind errors surface to the caller.
`free` tells which ports can be bound. -/
def mkDataServer (free : Nat → Bool) (port : Nat) : Except BindErr ServerHandle :=
  if free port then .ok ⟨port⟩ else .error (.addrInUse port)

/-- `start_socket_server` (server.py lines 127-161): constructs a DataServer
on the given port; on an `IOError` with a positive retry budget it recurses
on `port + 1` with the budget decremented; with the budget exhausted it
re-raises the error it just caught.  On success it returns the server
together with the port that was actually bound. -/
def start_socket_server (free : Nat → Bool) :
    Nat → Nat → Except BindErr (ServerHandle × Nat)
  | port, 0 =>
    match mkDataServer free port with
    | .ok s => .ok (s, port)
    | .error e => .error e
  | port, r + 1 =>
    match mkDataServer free port with
    | .ok s => .ok (s, port)
    | .error _ => start_socket_server free (port + 1) r

/-- C2 counterexample: with every port busy, `start_socket_server` on port 5
with retry budget 2 raises the bind failure of the LAST attempted port (7),
not the original failure from the first attempted port (5). -/
theorem start_socket_server_raises_last_error :
    start_socket_server (fun _ => false) 5 2 = .error (.addrInUse 7) ∧
      start_socket_server (fun _ => false) 5 2 ≠ .error (.addrInUse 5) := by
  refine ⟨by rfl, by simp [start_socket_server, mkDataServer]⟩

theorem start_socket_server_all_busy (free : Nat → Bool) (r : Nat) :
    ∀ port, (∀ k, k ≤ r → free (port + k) = false) →
      start_socket_server free port r = .error (.addrInUse (port + r)) := by
  induction r with
  | zero =>
    intro port h
    have h0 : free port = false := by simpa using h 0 (Nat.le_refl 0)
    simp [start_socket_server, mkDataServer, h0]
  | succ r ih =>
    intro port h
    have h0 : free port = false := by simpa using h 0 (Nat.zero_le _)
    have hrec := ih (port + 1) (by
      intro k hk
      have e : port + 1 + k = port + (k + 1) := by omega
      rw [e]
      exact h (k + 1) (by omega))
    have e : port + 1 + r = port + (r + 1) := by omega
    rw [e] at hrec
    simp [start_socket_server, mkDataServer, h0, hrec]

theorem start_socket_server_first_free (free : Nat → Bool) (r : Nat) :
    ∀ port k, k ≤ r → free (port + k) = true →
      (∀ j, j < k → free (port + j) = false) →
      start_socket_server free port r = .ok (⟨port + k⟩, port + k) := by
  induction r with
  | zero =>
    intro port k hk hfree _
    interval_cases k
    have h0 : free port = true := by simpa using hfree
    simp [start_socket_server, mkDataServer, h0]
  | succ r ih =>
    intro port k hk hfree hmin
    cases k with
    | zero =>
      have h0 : free port = true := by simpa using hfree
      simp [start_socket_server, mkDataServer, h0]
    | succ j =>
      have h0 : free port = false := by simpa using hmin 0 (Nat.succ_pos j)
      have hrec := ih (port + 1) j (Nat.le_of_succ_le_succ hk)
        (by
          have e : port + 1 + j = port + (j + 1) := by omega
          rw [e]
          exact hfree)
        (by
          intro i hi
          have e : port + 1 + i = port + (i + 1) := by omega
          rw [e]
          exact hmin (i + 1) (Nat.succ_lt_succ hi))
      have e : port + 1 + j = port + (j + 1) := by omega
      rw [e] at hrec
      simp [start_socket_server, mkDataServer, h0, hrec]

/-- C2 amended: `start_socket_server` attempts the given port and, on each
bind failure, retries at the next port with the budget decremented, up to
`r` retries; on the first free port `P + k` (`k ≤ r`) it returns the server
handle together with that actually-bound port; after exhausting the budget
with every port busy it re-raises the bind failure of the LAST attempted
port, `P + r` (not the one from the first attempted port). -/
theorem start_socket_server_spec (free : Nat → Bool) (port r : Nat) :
    ((∀ k, k ≤ r → free (port + k) = false) →
        start_socket_server free port r = .error (.addrInUse (port + r))) ∧
      (∀ k, k ≤ r → free (port + k) = true →
        (∀ j, j < k → free (port + j) = false) →
        start_socket_server free port r = .ok (⟨port + k⟩, port + k)) :=
  ⟨start_socket_server_all_busy free r port,
    fun k hk hfree hmin => start_socket_server_first_free free r port k hk hfree hmin⟩

/-- Witness for C2 amended: ports 5 and 6 busy, 7 free, budget 3: the server
is bound and returned on port 7. -/
theorem start_socket_server_spec_witness :
    (5 + 2 ≤ 5 + 3) ∧
      start_socket_server (fun p => decide (p = 7)) 5 3 = .ok (⟨5 + 2⟩, 5 + 2) :=
  ⟨by decide,
    (start_socket_server_spec (fun p => decide (p = 7)) 5 3).2 2 (by decide) (by decide)
      (by decide)⟩

/-- Outcome of `await_start`: either it returned normally after `polls`
checks of the started flag, or it raised the start-failure exception,
recording whether `dataserver.stop()` was called first. -/
inductive AwaitResult
  | startedOk (polls : Nat)
  | timedOut (stoppedFirst : Bool)
deriving DecidableEq

/-- The busy-wait loop of `await_start` (server.py lines 169-176), with the
wait measured in exact multiples of `wait_interval`.  `startedAt k` is the
value of `dataserver.started` at the k-th check; `budget` is the number of
further checks that fit before `wait` reaches `max_wait`.  When the budget
is exhausted without the flag being observed, the server is stopped and the
start-failure exception is raised — in that order. -/
def awaitLoop (startedAt : Nat → Bool) : Nat → Nat → AwaitResult
  | 0, k => if startedAt k then .startedOk k else .timedOut true
  | b + 1, k => if startedAt k then .startedOk k else awaitLoop startedAt b (k + 1)

/-- `await_start` (server.py lines 164-176): `max_wait` is given in units of
`wait_interval` (0.01 s); the default `max_wait=2` seconds is 200 units.
The loop checks the started flag, and otherwise sleeps one interval and
accumulates `wait`; it raises once `wait` reaches `max_wait`, so the flag is
checked at polls `0 .. max_wait_units - 1`. -/
def await_start (startedAt : Nat → Bool) (maxWaitUnits : Nat) : AwaitResult :=
  awaitLoop startedAt (maxWaitUnits - 1) 0

theorem awaitLoop_ok (startedAt : Nat → Bool) (b : Nat) :
    ∀ k0 j, j ≤ b → startedAt (k0 + j) = true →
      (∀ i, i < j → startedAt (k0 + i) = false) →
      awaitLoop startedAt b k0 = .startedOk (k0 + j) := by
  induction b with
  | zero =>
    intro k0 j hj hs _
    interval_cases j
    simp only [Nat.add_zero] at hs
    simp [awaitLoop, hs]
  | succ b ih =>
    intro k0 j hj hs hmin
    cases j with
    | zero =>
      simp only [Nat.add_zero] at hs
      simp [awaitLoop, hs]
    | succ i =>
      have h0 : startedAt k0 = false := by simpa using hmin 0 (Nat.succ_pos i)
      have hrec := ih (k0 + 1) i (Nat.le_of_succ_le_succ hj)
        (by
          have e : k0 + 1 + i = k0 + (i + 1) := by omega
          rw [e]
          exact hs)
        (by
          intro l hl
          have e : k0 + 1 + l = k0 + (l + 1) := by omega
          rw [e]
          exact hmin (l + 1) (Nat.succ_lt_succ hl))
      have e : k0 + 1 + i = k0 + (i + 1) := by omega
      rw [e] at hrec
      simp [awaitLoop, h0, hrec]

theorem awaitLoop_timeout (startedAt : Nat → Bool) (b : Nat) :
    ∀ k0, (∀ j, j ≤ b → startedAt (k0 + j) = false) →
      awaitLoop startedAt b k0 = .timedOut true := by
  induction b with
  | zero =>
    intro k0 h
    have h0 : startedAt k0 = false := by simpa using h 0 (Nat.le_refl 0)
    simp [awaitLoop, h0]
  | succ b ih =>
    intro k0 h
    have h0 : startedAt k0 = false := by simpa using h 0 (Nat.zero_le _)
    have hrec := ih (k0 + 1) (by
      intro j hj
      have e : k0 + 1 + j = k0 + (j + 1) := by omega
      rw [e]
      exact h (j + 1) (by omega))
    simp [awaitLoop, h0, hrec]

/-- C8: `await_start` returns normally at the first poll at which the server
reports it is listening, provided that happens within the bounded maximum
wait (checks occur at polls `0 .. maxWaitUnits - 1`; the default is 200
polls of 0.01 s, i.e. 2 seconds); otherwise it stops the server and then
raises the start-failure exception.  Either way it never blocks beyond the
bounded number of polls. -/
theorem await_start_spec (startedAt : Nat → Bool) (maxWaitUnits : Nat) :
    (∀ k, k ≤ maxWaitUnits - 1 → startedAt k = true →
        (∀ i, i < k → startedAt i = false) →
        await_start startedAt maxWaitUnits = .startedOk k) ∧
      ((∀ k, k ≤ maxWaitUnits - 1 → startedAt k = false) →
        await_start startedAt maxWaitUnits = .timedOut true) := by
  constructor
  · intro k hk hs hmin
    have := awaitLoop_ok startedAt (maxWaitUnits - 1) 0 k hk
      (by simpa using hs) (by simpa using hmin)
    simpa [await_start] using this
  · intro h
    have := awaitLoop_timeout startedAt (maxWaitUnits - 1) 0
      (by intro j hj; simpa using h j hj)
    simpa [await_start] using this

/-- Witness for C8: the server reports listening at poll 3 within the default
2-second budget (200 polls), and a server that never starts makes
`await_start` stop it and raise. -/
theorem await_start_spec_witness :
    await_start (fun k => decide (k = 3)) 200 = .startedOk 3 ∧
      await_start (fun _ => false) 200 = .timedOut true :=
  ⟨(await_start_spec (fun k => decide (k = 3)) 200).1 3 (by decide) (by decide) (by decide),
    (await_start_spec (fun _ => false) 200).2 (fun k _ => rfl)⟩

/-- Program counter of the server thread: in the accept loop (server.py
lines 62-76), in the teardown after the loop (lines 77-83), or finished. -/
inductive ThreadPC
  | looping
  | teardown
  | done
deriving DecidableEq

/-- Program counter of the caller invoking `stop()`: before clearing the
flag, joined on the thread, or returned from `stop()`. -/
inductive StopperPC
  | preSet
  | joining
  | returned
deriving DecidableEq

/-- Joint state of the server thread and of a caller of `stop()`:
the cooperative running flag, both program counters, whether the listening
socket has been explicitly closed, the number of accept-loop iterations run,
and whether the `shutdown(2)` call of the teardown succeeds (an environment
outcome, constant throughout the run). -/
structure SysState where
  flag : Bool
  tpc : ThreadPC
  spc : StopperPC
  socketClosed : Bool
  iterations : Nat
  shutdownOk : Bool
deriving DecidableEq

/-- One step of the server thread (`run`, server.py lines 62-84): while the
running flag holds it performs another accept-loop iteration; once the flag
is observed false it runs the teardown (lines 77-83):
`try: shutdown(2); close() except Exception: pass`.  When `shutdown(2)`
succeeds, `close()` runs and the socket is closed; when `shutdown(2)`
raises, `close()` is skipped — either way the exception is swallowed and
the thread finishes.  A finished thread does nothing. -/
def threadStep (s : SysState) : SysState :=
  match s.tpc with
  | .looping =>
    if s.flag then { s with iterations := s.iterations + 1 }
    else { s with tpc := .teardown }
  | .teardown =>
    if s.shutdownOk then { s with socketClosed := true, tpc := .done }
    else { s with tpc := .done }
  | .done => s

/-- Modelled from the spec: `StoppableThread` (bcipy/acquisition/util.py is
not among the sources).  Per the spec, "Stop is synchronous from the
caller's perspective: it does not return until the accept loop has exited
and the listening socket is closed" — so `stop()` clears the running flag
and then joins: it can return only once the thread is done. -/
def stopperStep (s : SysState) : SysState :=
  match s.spc with
  | .preSet => { s with flag := false, spc := .joining }
  | .joining =>
    match s.tpc with
    | .done => { s with spc := .returned }
    | _ => s
  | .returned => s

/-- Which party moves at a scheduling point. -/
inductive Who
  | thread
  | stopper
deriving DecidableEq

/-- Runs an arbitrary interleaving of thread and stopper steps. -/
def runSched : List Who → SysState → SysState
  | [], s => s
  | .thread :: ws, s => runSched ws (threadStep s)
  | .stopper :: ws, s => runSched ws (stopperStep s)

/-- Initial state: server running its accept loop, caller about to stop;
`b` fixes whether the teardown's `shutdown(2)` will succeed. -/
def initSys (b : Bool) : SysState := ⟨true, .looping, .preSet, false, 0, b⟩

/-- Invariant tying the stopper's return to the thread's completion: the
shutdown outcome is the environment-given `b`; `stop()` can only have
returned once the thread is done; a done thread has closed the socket
exactly when `shutdown(2)` succeeded; the socket is untouched before. -/
def SysInv (b : Bool) (s : SysState) : Prop :=
  s.shutdownOk = b ∧
    (s.spc = .returned → s.tpc = .done) ∧
    (s.tpc = .done → s.socketClosed = b) ∧
    (s.tpc ≠ .done → s.socketClosed = false)

theorem threadStep_inv (b : Bool) (s : SysState) (h : SysInv b s) :
    SysInv b (threadStep s) := by
  obtain ⟨h0, h1, h2, h3⟩ := h
  obtain ⟨flag, tpc, spc, sc, it, so⟩ := s
  cases tpc <;> cases flag <;> cases so <;>
    simp_all [threadStep, SysInv]

theorem stopperStep_inv (b : Bool) (s : SysState) (h : SysInv b s) :
    SysInv b (stopperStep s) := by
  obtain ⟨h0, h1, h2, h3⟩ := h
  obtain ⟨flag, tpc, spc, sc, it, so⟩ := s
  cases spc <;> cases tpc <;>
    simp_all [stopperStep, SysInv]

theorem runSched_inv (b : Bool) (ws : List Who) (s : SysState) (h : SysInv b s) :
    SysInv b (runSched ws s) := by
  induction ws generalizing s with
  | nil => exact h
  | cons w ws ih =>
    cases w with
    | thread => exact ih _ (threadStep_inv b s h)
    | stopper => exact ih _ (stopperStep_inv b s h)

/-- Once `stop()` has returned, the whole system is quiescent: any further
scheduling changes nothing. -/
theorem runSched_frozen (ws : List Who) (s : SysState)
    (hs : s.spc = .returned) (ht : s.tpc = .done) :
    runSched ws s = s := by
  induction ws with
  | nil => rfl
  | cons w ws ih =>
    cases w with
    | thread =>
      have e : threadStep s = s := by
        simp [threadStep, ht]
      simpa [runSched, e] using ih
    | stopper =>
      have e : stopperStep s = s := by
        simp [stopperStep, hs]
      simpa [runSched, e] using ih

/-- C3 counterexample: when the teardown's `shutdown(2)` raises (the
ordinary outcome for a socket that is only listening), `close()` is skipped
(server.py lines 77-82), so there is a complete run after which `stop()` has
returned but the listening socket was never closed — refuting the claim that
`stop()` does not return until the listening socket is closed. -/
theorem stop_return_with_socket_not_closed :
    (runSched [Who.stopper, Who.thread, Who.thread, Who.stopper] (initSys false)).spc
        = StopperPC.returned ∧
      (runSched [Who.stopper, Who.thread, Who.thread, Who.stopper] (initSys false)).socketClosed
        = false := by
  decide

/-- C3 amended: in every interleaving of the server thread with a caller of
`stop()`, `stop()` does not return until the accept loop has exited and the
socket teardown has run to completion; by the time `stop()` returns the
listening socket has been closed exactly when the teardown's `shutdown(2)`
succeeded (when `shutdown(2)` raises, `close()` is skipped and the error
suppressed); and after `stop()` returns, no server-side loop iteration or
socket operation of that server occurs (any further schedule leaves the
state, iteration count included, unchanged). -/
theorem stop_is_synchronous (b : Bool) (ws : List Who)
    (h : (runSched ws (initSys b)).spc = .returned) :
    (runSched ws (initSys b)).tpc = .done ∧
      (runSched ws (initSys b)).socketClosed = b ∧
      ∀ ws2, runSched ws2 (runSched ws (initSys b)) = runSched ws (initSys b) := by
  have hinv : SysInv b (runSched ws (initSys b)) :=
    runSched_inv b ws (initSys b) (by simp [SysInv, initSys])
  obtain ⟨_h0, h1, h2, _h3⟩ := hinv
  have ht := h1 h
  exact ⟨ht, h2 ht, fun ws2 => runSched_frozen ws2 _ h ht⟩

/-- Witness for C3 amended: a schedule in which the caller stops the server,
the thread observes the flag and tears down with `shutdown(2)` succeeding,
and `stop()` returns with the socket closed. -/
theorem stop_is_synchronous_witness :
    (runSched [Who.stopper, Who.thread, Who.thread, Who.stopper] (initSys true)).spc
        = StopperPC.returned ∧
      (runSched [Who.stopper, Who.thread, Who.thread, Who.stopper] (initSys true)).tpc
          = ThreadPC.done ∧
        (runSched [Who.stopper, Who.thread, Who.thread, Who.stopper] (initSys true)).socketClosed
            = true :=
  ⟨by decide,
    (stop_is_synchronous true [Who.stopper, Who.thread, Who.thread, Who.stopper]
      (by decide)).1,
    (stop_is_synchronous true [Who.stopper, Who.thread, Who.thread, Who.stopper]
      (by decide)).2.1⟩

/-- Explicit operations on the listening socket. -/
inductive SockOp
  | sockCreate
  | setsockopt
  | sockBind
  | sockShutdown
  | sockClose
deriving DecidableEq

/-- Socket operations performed by `DataServer.__init__` (server.py lines
46-51): create the socket, set SO_REUSEADDR, bind.  The second component is
whether construction succeeded: a bind failure propagates to the caller and
NO close is attempted on that path. -/
def initSockOps (bindOk : Bool) : List SockOp × Bool :=
  ([.sockCreate, .setsockopt, .sockBind], bindOk)

/-- The teardown at the end of `run` (server.py lines 77-83):
`try: shutdown(2); close() except Exception: pass`.  If `shutdown` raises,
`close` is never reached; either way the exception is swallowed, so the
second component (whether an exception escapes the teardown) is always
false. -/
def runTeardown (shutdownOk : Bool) (_closeOk : Bool) : List SockOp × Bool :=
  (if shutdownOk then [.sockShutdown, .sockClose] else [.sockShutdown], false)

/-- Number of explicit close operations in a socket-operation trace. -/
def closeCount (ops : List SockOp) : Nat :=
  ops.count .sockClose

/-- C4 counterexample: on the constructor's bind-failure exit path the
listening socket is NOT released exactly once — no close at all is
performed, the failure simply propagates. -/
theorem init_bind_failure_leaks_socket :
    (initSockOps false).2 = false ∧
      closeCount (initSockOps false).1 = 0 ∧
      closeCount (initSockOps false).1 ≠ 1 := by
  refine ⟨rfl, rfl, by decide⟩

/-- C4 amended: errors raised while shutting down or closing the listening
socket are suppressed, so the teardown at the end of `run` always completes;
when `shutdown` succeeds the socket is closed exactly once (even if `close`
itself errors).  But release is not guaranteed on every exit path: if
`shutdown` raises, the `close` call is skipped, and on a bind failure during
construction no explicit close is performed at all. -/
theorem socket_release_spec (shutdownOk closeOk bindOk : Bool) :
    (runTeardown shutdownOk closeOk).2 = false ∧
      closeCount (runTeardown true closeOk).1 = 1 ∧
      closeCount (runTeardown false closeOk).1 = 0 ∧
      closeCount (initSockOps bindOk).1 = 0 := by
  cases shutdownOk <;> cases closeOk <;> cases bindOk <;> decide

/-- Keys of the `gen_params` dictionary. -/
inductive PKey
  | encoder
  | channel_count
  | otherKey (n : Nat)
deriving DecidableEq

/-- A Python dict with insertion-order semantics, keys unique, values
modelled as opaque identifiers. -/
abbrev PyDict := List (PKey × Nat)

/-- `d[k] = v` on a Python dict: updates the value in place when the key is
present (keeping its position), appends the new pair otherwise. -/
def dictSet : PyDict → PKey → Nat → PyDict
  | [], k, v => [(k, v)]
  | (k0, v0) :: rest, k, v =>
    if k0 = k then (k, v) :: rest else (k0, v0) :: dictSet rest k v

/-- `d.get(k)` on a Python dict. -/
def dictGet : PyDict → PKey → Option Nat
  | [], _ => none
  | (k0, v0) :: rest, k => if k0 = k then some v0 else dictGet rest k

/-- A Python dict is truthy exactly when it is non-empty (used by the `or` in
`gen_params or {}`). -/
def dictTruthy : PyDict → Bool
  | [] => false
  | _ :: _ => true

/-- Outcome of the `gen_params` handling in `DataServer.__init__`:
the dictionary the server stores in `self.gen_params`, whether that object
is the very dictionary the caller passed in (aliased), and the contents of
the caller's dictionary after the constructor ran. -/
structure InitGenParamsResult where
  server_gen_params : PyDict
  aliased : Bool
  caller_after : PyDict
deriving DecidableEq

/-- `DataServer.__init__` lines 38-39:
`self.gen_params = gen_params or {}` followed by
`self.gen_params['encoder'] = protocol.encoder`.  When the caller passes a
truthy (non-empty) dict, the server aliases it and the insertion mutates the
caller's object; when the caller passes `None` or an empty (falsy) dict, a
fresh dict is created and the caller's object is untouched. -/
def initGenParams (caller : Option PyDict) (enc : Nat) : InitGenParamsResult :=
  match caller with
  | none => ⟨dictSet [] .encoder enc, false, []⟩
  | some d =>
    if dictTruthy d then
      ⟨dictSet d .encoder enc, true, dictSet d .encoder enc⟩
    else
      ⟨dictSet [] .encoder enc, false, d⟩

/-- `_handle_client` line 109 reads `self.gen_params` for every session: the
same stored dictionary object is used each time. -/
def sessionGenParams (r : InitGenParamsResult) (_session : Nat) : PyDict :=
  r.server_gen_params

theorem dictGet_set_self (d : PyDict) (k : PKey) (v : Nat) :
    dictGet (dictSet d k v) k = some v := by
  induction d with
  | nil => simp [dictSet, dictGet]
  | cons kv rest ih =>
    obtain ⟨k0, v0⟩ := kv
    by_cases h : k0 = k
    · simp [dictSet, dictGet, h]
    · simp [dictSet, dictGet, h, ih]

theorem dictGet_set_other (d : PyDict) (k k' : PKey) (v : Nat) (h : k' ≠ k) :
    dictGet (dictSet d k v) k' = dictGet d k' := by
  have h' : ¬(k = k') := fun hc => h hc.symm
  induction d with
  | nil => simp [dictSet, dictGet, h']
  | cons kv rest ih =>
    obtain ⟨k0, v0⟩ := kv
    by_cases h0 : k0 = k
    · subst h0
      simp [dictSet, dictGet, h']
    · by_cases h1 : k0 = k'
      · subst h1
        simp [dictSet, dictGet, h0]
      · simp [dictSet, dictGet, h0, h1, ih]

/-- C9 counterexample: with a caller-supplied EMPTY dict (falsy in Python),
the constructor does NOT mutate the caller's dictionary: the server builds a
fresh dict, and the caller's dict still has no 'encoder' key afterwards. -/
theorem init_gen_params_empty_dict_not_mutated :
    (initGenParams (some []) 5).aliased = false ∧
      dictGet (initGenParams (some []) 5).caller_after PKey.encoder = none := by
  refine ⟨rfl, rfl⟩

/-- C9 amended: when the caller supplies a non-empty `gen_params` dict, the
constructor mutates that same object in place, inserting the key 'encoder'
bound to the protocol's encoder and touching no other key, and that same
dictionary object is reused to construct the generator of every session;
when the caller passes `None` or an empty dict, a fresh internal dict is
used instead and the caller's object is untouched. -/
theorem init_gen_params_spec (d : PyDict) (enc : Nat) (h : d ≠ []) :
    (initGenParams (some d) enc).aliased = true ∧
      (initGenParams (some d) enc).caller_after = dictSet d .encoder enc ∧
      dictGet (initGenParams (some d) enc).caller_after .encoder = some enc ∧
      (∀ k, k ≠ PKey.encoder →
        dictGet (initGenParams (some d) enc).caller_after k = dictGet d k) ∧
      (∀ i j, sessionGenParams (initGenParams (some d) enc) i
          = sessionGenParams (initGenParams (some d) enc) j) ∧
      (initGenParams (some d) enc).server_gen_params
        = (initGenParams (some d) enc).caller_after := by
  have ht : dictTruthy d = true := by
    cases d with
    | nil => exact absurd rfl h
    | cons kv rest => rfl
  refine ⟨?_, ?_, ?_, ?_, ?_, ?_⟩ <;>
    simp [initGenParams, ht, sessionGenParams, dictGet_set_self, dictGet_set_other]
  intro k hk
  exact dictGet_set_other d .encoder k enc hk

/-- Witness for C9 amended: a caller dict holding a channel count; after
construction it carries the encoder too, with the channel count intact. -/
theorem init_gen_params_spec_witness :
    ([(PKey.channel_count, 7)] : PyDict) ≠ [] ∧
      dictGet (initGenParams (some [(PKey.channel_count, 7)]) 42).caller_after PKey.encoder
        = some 42 :=
  ⟨by decide, (init_gen_params_spec [(PKey.channel_count, 7)] 42 (by decide)).2.2.1⟩

/-- A generator instance: a stateful, restartable lazy source of samples,
with its initial cursor state and a step function (`none` = exhausted). -/
structure GenInst (σ S : Type) where
  init : σ
  next : σ → Option (S × σ)

/-- The first `n` samples a generator instance yields from state `st`. -/
def GenInst.takeFrom (g : GenInst σ S) : Nat → σ → List S
  | 0, _ => []
  | n + 1, st =>
    match g.next st with
    | none => []
    | some (x, st') => x :: g.takeFrom n st'

/-- server.py line 109: `generator = self.generator(**self.gen_params)` — a
fresh generator instance is constructed for every client connection from the
same generator function and the same parameters, so the instance does not
depend on the session index. -/
def newGenerator (genfn : P → GenInst σ S) (params : P) (_session : Nat) :
    GenInst σ S :=
  genfn params

/-- The first `n` encoded frames observed by session number `i`: the fresh
instance starts at its initial state. -/
def sessionFrameSeq (proto : Protocol S) (genfn : P → GenInst σ S) (params : P)
    (i n : Nat) : List Bytes :=
  ((newGenerator genfn params i).takeFrom n (newGenerator genfn params i).init).map
    proto.encoder

theorem takeFrom_head (g : GenInst σ S) (st : σ) (n : Nat) (h : 0 < n) :
    (g.takeFrom n st).head? = (g.next st).map (fun xs => xs.1) := by
  cases n with
  | zero => exact absurd h (by simp)
  | succ m =>
    cases hn : g.next st with
    | none => simp [GenInst.takeFrom, hn]
    | some xs => simp [GenInst.takeFrom, hn]

/-- C6: every session constructs a fresh generator instance from the same
generator function and parameters, so (the generator being a deterministic
function of its parameters) any two sessions observe identical frame
sequences starting from the generator's initial state; in particular, for
nonempty observations, session 2's first frame equals session 1's first
frame. -/
theorem sessions_restart_generator (proto : Protocol S)
    (genfn : P → GenInst σ S) (params : P) (i j n1 n2 : Nat) :
    sessionFrameSeq proto genfn params i n1 = sessionFrameSeq proto genfn params j n1 ∧
      (0 < n1 → 0 < n2 →
        (sessionFrameSeq proto genfn params i n1).head?
          = (sessionFrameSeq proto genfn params j n2).head?) := by
  refine ⟨rfl, ?_⟩
  intro h1 h2
  simp only [sessionFrameSeq, List.head?_map, newGenerator]
  rw [takeFrom_head _ _ _ h1, takeFrom_head _ _ _ h2]

/-- Witness for C6: a counter generator; two sessions of different lengths
both start with the frame encoding sample 0. -/
theorem sessions_restart_generator_witness :
    (0 : Nat) < 2 ∧ (0 : Nat) < 3 ∧
      (sessionFrameSeq ⟨1, [], fun s => [s], 1⟩
          (fun _ => (⟨0, fun s => some (s, s + 1)⟩ : GenInst Nat Nat)) () 0 2).head?
        = (sessionFrameSeq ⟨1, [], fun s => [s], 1⟩
            (fun _ => (⟨0, fun s => some (s, s + 1)⟩ : GenInst Nat Nat)) () 1 3).head? :=
  ⟨by decide, by decide,
    (sessions_restart_generator ⟨1, [], fun s => [s], 1⟩
        (fun _ => (⟨0, fun s => some (s, s + 1)⟩ : GenInst Nat Nat)) () 0 1 2 3).2
      (by decide) (by decide)⟩

/-- A child processor as seen by `DispatchProcessor`: an identifying tag and
its stored `_device_info` (None until set). -/
structure ChildProc (D : Type) where
  tag : Nat
  device_info : Option D
deriving DecidableEq

/-- `DispatchProcessor` (processor.py lines 141-171): its own `_device_info`
plus the `processors` collection, in insertion order. -/
structure DispatchProcessor (D : Type) where
  device_info : Option D
  processors : List (ChildProc D)
deriving DecidableEq

/-- `set_device_info` (processor.py lines 153-156): stores the info and
propagates it to every processor currently in the collection. -/
def DispatchProcessor.set_device_info (p : DispatchProcessor D) (d : D) :
    DispatchProcessor D :=
  ⟨some d, p.processors.map (fun c => ⟨c.tag, some d⟩)⟩

/-- `add` (processor.py lines 158-162): appends the processor and, when this
dispatcher's `_device_info` is already set (DeviceInfo instances are truthy),
propagates it to the newly added processor. -/
def DispatchProcessor.addProc (p : DispatchProcessor D) (c : ChildProc D) :
    DispatchProcessor D :=
  match p.device_info with
  | some d => ⟨p.device_info, p.processors ++ [⟨c.tag, some d⟩]⟩
  | none => ⟨p.device_info, p.processors ++ [c]⟩

/-- `process` (processor.py lines 169-171): forwards the record to every
child, in the order of the `processors` list.  The result is the call trace:
one `(tag, record, timestamp)` entry per child, in insertion order. -/
def DispatchProcessor.processCalls (p : DispatchProcessor D) (record : Nat)
    (ts : Option Nat) : List (Nat × Nat × Option Nat) :=
  p.processors.map (fun c => (c.tag, record, ts))

/-- Operations a client can perform on a `DispatchProcessor`. -/
inductive DispatchOp (D : Type)
  | setInfo (d : D)
  | addProc (c : ChildProc D)

/-- Applies a sequence of operations to a dispatcher. -/
def applyOps (p : DispatchProcessor D) : List (DispatchOp D) → DispatchProcessor D
  | [] => p
  | .setInfo d :: ops => applyOps (p.set_device_info d) ops
  | .addProc c :: ops => applyOps (p.addProc c) ops

/-- The dispatcher invariant: once the device info is set, every child
processor in the collection carries the same device info. -/
def DInv (p : DispatchProcessor D) : Prop :=
  ∀ d, p.device_info = some d → ∀ c, c ∈ p.processors → c.device_info = some d

theorem set_device_info_DInv (p : DispatchProcessor D) (d : D) :
    DInv (p.set_device_info d) := by
  intro d' hd' c hc
  simp only [DispatchProcessor.set_device_info] at hd' hc
  obtain ⟨rfl⟩ : d = d' := by injection hd'
  obtain ⟨c0, _hc0, rfl⟩ := List.mem_map.mp hc
  rfl

theorem addProc_DInv (p : DispatchProcessor D) (c : ChildProc D) (h : DInv p) :
    DInv (p.addProc c) := by
  obtain ⟨info, procs⟩ := p
  cases info with
  | none =>
    intro d' hd' c' hc'
    simp [DispatchProcessor.addProc] at hd'
  | some d0 =>
    intro d' hd' c' hc'
    simp only [DispatchProcessor.addProc] at hd' hc'
    have hdd : d0 = d' := by injection hd'
    subst hdd
    rcases List.mem_append.mp hc' with hmem | hmem
    · exact h d0 rfl c' hmem
    · simp only [List.mem_singleton] at hmem
      subst hmem
      rfl

theorem applyOps_DInv (ops : List (DispatchOp D)) (p : DispatchProcessor D)
    (h : DInv p) : DInv (applyOps p ops) := by
  induction ops generalizing p with
  | nil => exact h
  | cons op ops ih =>
    cases op with
    | setInfo d => exact ih _ (set_device_info_DInv p d)
    | addProc c => exact ih _ (addProc_DInv p c h)

/-- C10: `DispatchProcessor` preserves the invariant that once its device
info is set, every child processor has the same device info —
`set_device_info` propagates to every current child and `addProc` propagates
the already-set info to the newly added child — under any sequence of those
operations; and `process` forwards the record to every child in insertion
order (the call trace lists exactly the children of the collection, in
order, each receiving the same record and timestamp). -/
theorem dispatch_processor_spec (ops : List (DispatchOp D))
    (p : DispatchProcessor D) (h : DInv p) :
    DInv (applyOps p ops) ∧
      (∀ record ts,
        (applyOps p ops).processCalls record ts
          = (applyOps p ops).processors.map (fun c => (c.tag, record, ts))) :=
  ⟨applyOps_DInv ops p h, fun _ _ => rfl⟩

/-- Witness for C10: starting from a fresh dispatcher, add a child, set the
info, then add another child; the invariant holds at the result. -/
theorem dispatch_processor_spec_witness :
    DInv (applyOps (⟨none, []⟩ : DispatchProcessor Nat)
      [DispatchOp.addProc ⟨1, none⟩, DispatchOp.setInfo 5,
        DispatchOp.addProc ⟨2, none⟩]) :=
  (dispatch_processor_spec
      [DispatchOp.addProc ⟨1, none⟩, DispatchOp.setInfo 5, DispatchOp.addProc ⟨2, none⟩]
      ⟨none, []⟩ (fun _d hd => nomatch hd)).1
